import Mathlib

/-!
Shallow embedding of the caching and batch-loading layer of the
`li367/ai-hedge-fund` repository:

* `src/src/data/cache.py` — the `Cache` class (two-tier cache with LRU
  eviction, TTL on the disk tier, md5-fallback key derivation) and the
  module-level `get_cache` singleton accessor;
* `src/src/data/data_loader.py` — `DataLoader` (timestamped memory cache,
  disk cache, parallel `load_stocks_data`);
* `src/src/utils/data_loader.py` — the second `DataLoader` (disk cache
  without a write-side exception handler).

Python dicts are modelled as insertion-ordered association lists
(`List (String × α)`); `time.time()` is an explicit `now : Nat` argument;
a raised exception is `Except.error`; filesystem primitives that may fail
are supplied as `Except` values in an environment record.
-/

namespace AIHF

/-- Python `k in d` on an insertion-ordered dict. -/
def dictContains {α : Type} (d : List (String × α)) (k : String) : Bool :=
  d.any (fun p => p.1 = k)

/-- Python `d.get(k)` / `d[k]` lookup on an insertion-ordered dict. -/
def dictGet? {α : Type} (d : List (String × α)) (k : String) : Option α :=
  (d.find? (fun p => p.1 = k)).map (fun p => p.2)

/-- Python `d[k] = v`: update in place (keeping the key's position) when the
key is present, otherwise append at the end, as CPython dicts do. -/
def dictSet {α : Type} (d : List (String × α)) (k : String) (v : α) :
    List (String × α) :=
  if dictContains d k then
    d.map (fun p => if p.1 = k then (k, v) else p)
  else
    d ++ [(k, v)]

/-- Python `list(d.keys())` in insertion order. -/
def dictKeys {α : Type} (d : List (String × α)) : List String :=
  d.map (fun p => p.1)

/-- Python `hits.get(k, 0)` (`Cache._cache_hits` lookup). -/
def hitsGet (h : List (String × Nat)) (k : String) : Nat :=
  (dictGet? h k).getD 0

/-- Python `ticker.lower()`: character-wise lower-casing. -/
def toLowerStr (s : String) : String :=
  ⟨s.data.map Char.toLower⟩

/-- `Cache._generate_cache_key` (src/src/data/cache.py lines 115-139) and the
identical `DataLoader._generate_cache_key` (src/src/data/data_loader.py lines
101-125).  `md5` stands for `hashlib.md5(...).hexdigest()`, an external
library function; `params` is the kwargs mapping, rendered as `k=v` pairs and
sorted (Python's `sorted` on strings, i.e. the unique stable sort for the
total lexicographic order). -/
def generateCacheKey (md5 : String → String) (ticker : String)
    (params : List (String × String)) : String :=
  let paramStr := toLowerStr ticker
  let paramStr :=
    if params.isEmpty then paramStr
    else
      let paramsList :=
        (params.map (fun kv => kv.1 ++ "=" ++ kv.2)).insertionSort
          (fun a b => a.data ≤ b.data)
      paramStr ++ "_" ++ String.intercalate "_" paramsList
  if 100 < paramStr.length then toLowerStr ticker ++ "_" ++ md5 paramStr
  else paramStr

/-- The serialized disk entry `{'timestamp': time.time(), 'data': data}`
written by `Cache._save_to_disk_cache`. -/
structure DiskEntry (α : Type) where
  timestamp : Nat
  data : α
  deriving DecidableEq

/-- The per-data-type state of a `Cache` instance: the in-memory dict
(`self._prices_cache`, ...), its hit-count dict
(`self._cache_hits[data_type]`) and the on-disk store for that data type
(one entry per key, error-free filesystem view). -/
structure DomainState (α : Type) where
  mem : List (String × α)
  hits : List (String × Nat)
  disk : List (String × DiskEntry α)
  deriving DecidableEq

/-- `Cache._update_cache_hit` (lines 313-322):
`hits[key] = hits.get(key, 0) + 1`. -/
def updateCacheHit (hits : List (String × Nat)) (key : String) :
    List (String × Nat) :=
  dictSet hits key (hitsGet hits key + 1)

/-- `Cache._enforce_memory_limits` (lines 286-311): when the dict exceeds
`max_memory_items`, sort the keys by hit count (Python's stable `sorted`)
and drop the first `len - max` of them from both the cache dict and the hit
dict. -/
def enforceMemoryLimits {α : Type} (maxMemoryItems : Nat)
    (cacheDict : List (String × α)) (hits : List (String × Nat)) :
    List (String × α) × List (String × Nat) :=
  if cacheDict.length ≤ maxMemoryItems then (cacheDict, hits)
  else
    let sortedKeys := (dictKeys cacheDict).insertionSort
      (fun a b => hitsGet hits a ≤ hitsGet hits b)
    let keysToRemove := sortedKeys.take (cacheDict.length - maxMemoryItems)
    (cacheDict.filter (fun p => !keysToRemove.contains p.1),
     hits.filter (fun p => !keysToRemove.contains p.1))

/-- `Cache._save_to_disk_cache` (lines 210-243) on the error-free filesystem
view: store `{'timestamp': now, 'data': data}` under the key's file. -/
def saveToDiskCache {α : Type} (diskCacheEnabled : Bool)
    (disk : List (String × DiskEntry α)) (cacheKey : String) (data : α)
    (now : Nat) : List (String × DiskEntry α) :=
  if diskCacheEnabled then dictSet disk cacheKey ⟨now, data⟩ else disk

/-- `Cache._load_from_disk_cache` (lines 245-284) on the error-free
filesystem view: `(success, data)`; an entry whose age
`now - timestamp` exceeds `cache_timeout_days * 86400` is a miss. -/
def loadFromDiskCache {α : Type} (diskCacheEnabled : Bool)
    (cacheTimeoutDays : Nat) (disk : List (String × DiskEntry α))
    (cacheKey : String) (now : Nat) : Bool × Option α :=
  if diskCacheEnabled then
    match dictGet? disk cacheKey with
    | none => (false, none)
    | some e =>
      if cacheTimeoutDays * 86400 < now - e.timestamp then (false, none)
      else (true, some e.data)
  else (false, none)

/-- Observable effects of a cache read: a memory-dict lookup, a disk-cache
load attempt, or a call to the upstream data source / API (which the
`Cache` getters never perform). -/
inductive CacheEvent
  | memLookup
  | diskLoad
  | apiCall
  deriving DecidableEq

/-- Disk part of the common body of `Cache.get_prices` / `get_metrics` /
`get_line_items` / `get_insider_trades` / `get_company_news`: try the disk
cache and, on a hit, promote the entry into the memory dict (insert, count
the hit, enforce the memory limit). -/
def getOpDisk {α : Type} (memoryCacheEnabled diskCacheEnabled : Bool)
    (cacheTimeoutDays maxMemoryItems : Nat) (dom : DomainState α)
    (cacheKey : String) (now : Nat) : Option α × DomainState α :=
  if diskCacheEnabled then
    match loadFromDiskCache true cacheTimeoutDays dom.disk cacheKey now with
    | (true, some data) =>
      if memoryCacheEnabled then
        let mem := dictSet dom.mem cacheKey data
        let hits := updateCacheHit dom.hits cacheKey
        let mh := enforceMemoryLimits maxMemoryItems mem hits
        (some data, { dom with mem := mh.1, hits := mh.2 })
      else (some data, dom)
    | _ => (none, dom)
  else (none, dom)

/-- Common body of the five `Cache.get_*` readers (e.g. `Cache.get_prices`,
lines 324-357): memory dict first (hit returns immediately), then the disk
cache with promotion, else `None`.  Also returns the list of observable
effects the read performed. -/
def getOp {α : Type} (memoryCacheEnabled diskCacheEnabled : Bool)
    (cacheTimeoutDays maxMemoryItems : Nat) (dom : DomainState α)
    (cacheKey : String) (now : Nat) :
    Option α × DomainState α × List CacheEvent :=
  if memoryCacheEnabled && dictContains dom.mem cacheKey then
    (dictGet? dom.mem cacheKey,
     { dom with hits := updateCacheHit dom.hits cacheKey },
     [CacheEvent.memLookup])
  else
    let evs := if memoryCacheEnabled then [CacheEvent.memLookup] else []
    let rd := getOpDisk memoryCacheEnabled diskCacheEnabled cacheTimeoutDays
      maxMemoryItems dom cacheKey now
    (rd.1, rd.2,
     evs ++ (if diskCacheEnabled then [CacheEvent.diskLoad] else []))

/-- Common body of the five `Cache.set_*` writers (e.g. `Cache.set_prices`,
lines 359-384): optionally compact the payload, insert into the memory dict
(counting the hit and enforcing the limit), then write to disk. -/
def setOp {α : Type} (memoryCacheEnabled diskCacheEnabled
    memoryOptimization : Bool) (optimizeMemory : α → α)
    (maxMemoryItems : Nat) (dom : DomainState α) (cacheKey : String)
    (data : α) (now : Nat) : DomainState α :=
  let data := if memoryOptimization then optimizeMemory data else data
  let dom :=
    if memoryCacheEnabled then
      let mem := dictSet dom.mem cacheKey data
      let hits := updateCacheHit dom.hits cacheKey
      let mh := enforceMemoryLimits maxMemoryItems mem hits
      { dom with mem := mh.1, hits := mh.2 }
    else dom
  if diskCacheEnabled then
    { dom with disk := saveToDiskCache true dom.disk cacheKey data now }
  else dom

/-- The `Cache` class (src/src/data/cache.py lines 36-680).  `optimizeMemory`
models the pandas value-preserving compaction done by
`Cache._optimize_memory`; `md5` models `hashlib.md5(...).hexdigest()`.
Field defaults are the constructor defaults of `Cache.__init__`. -/
structure Cache (α : Type) where
  memoryCacheEnabled : Bool := true
  diskCacheEnabled : Bool := true
  cacheTimeoutDays : Nat := 1
  memoryOptimization : Bool := true
  maxMemoryItems : Nat := 1000
  optimizeMemory : α → α
  md5 : String → String
  prices : DomainState α := ⟨[], [], []⟩
  metrics : DomainState α := ⟨[], [], []⟩
  lineItems : DomainState α := ⟨[], [], []⟩
  insiderTrades : DomainState α := ⟨[], [], []⟩
  companyNews : DomainState α := ⟨[], [], []⟩

/-- `Cache.get_prices` (lines 324-357). -/
def Cache.get_prices {α : Type} (c : Cache α)
    (ticker start_date end_date : String) (now : Nat) :
    Option α × Cache α × List CacheEvent :=
  let cacheKey := generateCacheKey c.md5 ticker
    [("start_date", start_date), ("end_date", end_date)]
  let r := getOp c.memoryCacheEnabled c.diskCacheEnabled c.cacheTimeoutDays
    c.maxMemoryItems c.prices cacheKey now
  (r.1, { c with prices := r.2.1 }, r.2.2)

/-- `Cache.set_prices` (lines 359-384). -/
def Cache.set_prices {α : Type} (c : Cache α)
    (ticker start_date end_date : String) (data : α) (now : Nat) : Cache α :=
  let cacheKey := generateCacheKey c.md5 ticker
    [("start_date", start_date), ("end_date", end_date)]
  let dom := setOp c.memoryCacheEnabled c.diskCacheEnabled
    c.memoryOptimization c.optimizeMemory c.maxMemoryItems c.prices
    cacheKey data now
  { c with prices := dom }

/-- `Cache.get_metrics` (lines 386-417). -/
def Cache.get_metrics {α : Type} (c : Cache α) (ticker : String)
    (now : Nat) : Option α × Cache α × List CacheEvent :=
  let cacheKey := generateCacheKey c.md5 ticker []
  let r := getOp c.memoryCacheEnabled c.diskCacheEnabled c.cacheTimeoutDays
    c.maxMemoryItems c.metrics cacheKey now
  (r.1, { c with metrics := r.2.1 }, r.2.2)

/-- `Cache.set_metrics` (lines 419-442). -/
def Cache.set_metrics {α : Type} (c : Cache α) (ticker : String) (data : α)
    (now : Nat) : Cache α :=
  let cacheKey := generateCacheKey c.md5 ticker []
  let dom := setOp c.memoryCacheEnabled c.diskCacheEnabled
    c.memoryOptimization c.optimizeMemory c.maxMemoryItems c.metrics
    cacheKey data now
  { c with metrics := dom }

/-- `Cache.get_line_items` (lines 444-476); `query_params` are the kwargs. -/
def Cache.get_line_items {α : Type} (c : Cache α) (ticker : String)
    (query_params : List (String × String)) (now : Nat) :
    Option α × Cache α × List CacheEvent :=
  let cacheKey := generateCacheKey c.md5 ticker query_params
  let r := getOp c.memoryCacheEnabled c.diskCacheEnabled c.cacheTimeoutDays
    c.maxMemoryItems c.lineItems cacheKey now
  (r.1, { c with lineItems := r.2.1 }, r.2.2)

/-- `Cache.set_line_items` (lines 478-502). -/
def Cache.set_line_items {α : Type} (c : Cache α) (ticker : String)
    (data : α) (query_params : List (String × String)) (now : Nat) :
    Cache α :=
  let cacheKey := generateCacheKey c.md5 ticker query_params
  let dom := setOp c.memoryCacheEnabled c.diskCacheEnabled
    c.memoryOptimization c.optimizeMemory c.maxMemoryItems c.lineItems
    cacheKey data now
  { c with lineItems := dom }

/-- `Cache.get_insider_trades` (lines 504-535). -/
def Cache.get_insider_trades {α : Type} (c : Cache α) (ticker : String)
    (now : Nat) : Option α × Cache α × List CacheEvent :=
  let cacheKey := generateCacheKey c.md5 ticker []
  let r := getOp c.memoryCacheEnabled c.diskCacheEnabled c.cacheTimeoutDays
    c.maxMemoryItems c.insiderTrades cacheKey now
  (r.1, { c with insiderTrades := r.2.1 }, r.2.2)

/-- `Cache.set_insider_trades` (lines 537-560). -/
def Cache.set_insider_trades {α : Type} (c : Cache α) (ticker : String)
    (data : α) (now : Nat) : Cache α :=
  let cacheKey := generateCacheKey c.md5 ticker []
  let dom := setOp c.memoryCacheEnabled c.diskCacheEnabled
    c.memoryOptimization c.optimizeMemory c.maxMemoryItems c.insiderTrades
    cacheKey data now
  { c with insiderTrades := dom }

/-- `Cache.get_company_news` (lines 562-594); `days` is formatted as the
`days=<int>` kwarg. -/
def Cache.get_company_news {α : Type} (c : Cache α) (ticker : String)
    (days : Nat) (now : Nat) : Option α × Cache α × List CacheEvent :=
  let cacheKey := generateCacheKey c.md5 ticker [("days", toString days)]
  let r := getOp c.memoryCacheEnabled c.diskCacheEnabled c.cacheTimeoutDays
    c.maxMemoryItems c.companyNews cacheKey now
  (r.1, { c with companyNews := r.2.1 }, r.2.2)

/-- `Cache.set_company_news` (lines 596-620). -/
def Cache.set_company_news {α : Type} (c : Cache α) (ticker : String)
    (data : α) (days : Nat) (now : Nat) : Cache α :=
  let cacheKey := generateCacheKey c.md5 ticker [("days", toString days)]
  let dom := setOp c.memoryCacheEnabled c.diskCacheEnabled
    c.memoryOptimization c.optimizeMemory c.maxMemoryItems c.companyNews
    cacheKey data now
  { c with companyNews := dom }

/-- `Cache()` with all constructor defaults, as built by the first call to
`get_cache`. -/
def defaultCache {α : Type} (optimizeMemory : α → α)
    (md5 : String → String) : Cache α :=
  { optimizeMemory := optimizeMemory, md5 := md5 }

/-- `get_cache` (src/src/data/cache.py lines 687-697): the module global
`_cache` is the explicit state (`none` before the first call); the first
call constructs `Cache()` and stores it, later calls return the stored
instance. -/
def get_cache {α : Type} (optimizeMemory : α → α) (md5 : String → String)
    (st : Option (Cache α)) : Cache α × Option (Cache α) :=
  match st with
  | none =>
    let c := defaultCache optimizeMemory md5
    (c, some c)
  | some c => (c, some c)

/-- Value recorded for one ticker by the batch loader: the fetched frame on
success, the failure marker `pd.DataFrame()` when the per-ticker fetch
raised and was caught inside `_load_stock_data`. -/
def fetchOrMarker {ε α : Type} (fetch : String → Except ε α)
    (emptyDataFrame : α) (ticker : String) : α :=
  match fetch ticker with
  | Except.ok df => df
  | Except.error _ => emptyDataFrame

/-- `DataLoader.load_stocks_data` (src/src/data/data_loader.py lines
403-448).  `fetch` abstracts `self.get_stock_prices`, which may raise
(`Except.error`).  An empty ticker list returns the empty dict; a
singleton list calls the fetch directly, propagating any exception; with
two or more tickers every fetch runs in a worker whose exceptions are
caught and replaced by an empty `DataFrame`, and the results dict gets an
entry for every ticker. -/
def load_stocks_data {ε α : Type} (fetch : String → Except ε α)
    (emptyDataFrame : α) (tickers : List String) :
    Except ε (List (String × α)) :=
  match tickers with
  | [] => Except.ok []
  | [ticker] =>
    match fetch ticker with
    | Except.ok df => Except.ok (dictSet [] ticker df)
    | Except.error e => Except.error e
  | _ =>
    Except.ok (tickers.foldl
      (fun result ticker =>
        dictSet result ticker (fetchOrMarker fetch emptyDataFrame ticker))
      [])

/-- `DataLoader.load_stock_data` of src/src/utils/data_loader.py (lines
400-468), the batch entry point.  `loadSingle` abstracts
`self._load_single_stock_data`, which may raise (`Except.error`); `α`
stands for the per-ticker result dict and `emptyDict` for the `{}` failure
marker.  A singleton list calls `_load_single_stock_data` directly with no
handler, so its exception propagates; otherwise every ticker runs in a
worker and a worker's exception is caught (`future.result()` inside
`try`), recording `result[ticker] = {}`.  `as_completed` yields futures in
a nondeterministic order, which permutes only the dict's insertion order,
never the key-value mapping; the model collects in submission order. -/
def load_stock_data {ε α : Type} (loadSingle : String → Except ε α)
    (emptyDict : α) (tickers : List String) :
    Except ε (List (String × α)) :=
  match tickers with
  | [ticker] =>
    match loadSingle ticker with
    | Except.ok d => Except.ok (dictSet [] ticker d)
    | Except.error e => Except.error e
  | _ =>
    Except.ok (tickers.foldl
      (fun result ticker =>
        dictSet result ticker (fetchOrMarker loadSingle emptyDict ticker))
      [])

/-- The per-data-type fetch step of `_load_single_stock_data`
(src/src/utils/data_loader.py lines 278-292, prices branch; the metrics,
news and insider branches are identical in structure): on a memory and
disk cache miss, the API fetch and the subsequent compaction and cache
writes (`postFetch`) all run inside `try`, and the `except` clause
substitutes the empty `DataFrame` marker — a fetch failure never escapes
the function. -/
def loadSinglePricesRun {ε α : Type} (apiFetch : Except ε α)
    (postFetch : α → Except ε α) (emptyDataFrame : α) : Except ε α :=
  match (do
      let d ← apiFetch
      postFetch d : Except ε α) with
  | Except.ok d => Except.ok d
  | Except.error _ => Except.ok emptyDataFrame

/-- A memory-cache item of the second loader,
`{'timestamp': time.time(), 'data': data}` as written by
`DataLoader._save_to_memory_cache` (src/src/data/data_loader.py lines
244-266). -/
structure MemCacheItem (α : Type) where
  timestamp : Nat
  data : α
  deriving DecidableEq

/-- `DataLoader._get_from_memory_cache` (src/src/data/data_loader.py lines
211-242): a memory hit whose age exceeds `cache_timeout_days * 86400` is
reported as a miss. -/
def getFromMemoryCache {α : Type} (memoryCacheEnabled : Bool)
    (cacheTimeoutDays : Nat) (cache : List (String × MemCacheItem α))
    (cacheKey : String) (now : Nat) : Bool × Option α :=
  if memoryCacheEnabled then
    match dictGet? cache cacheKey with
    | some item =>
      if now - item.timestamp ≤ cacheTimeoutDays * 86400 then
        (true, some item.data)
      else (false, none)
    | none => (false, none)
  else (false, none)

/-- Outcomes of the primitive filesystem / pickle operations performed by
the disk-cache methods; `Except.error` models a raised exception
(missing file, permission error, corruption, serialization failure). -/
structure DiskFS (α : Type) where
  makedirs : Except String Unit
  openWrite : Except String Unit
  pickleDump : Except String Unit
  fileExists : Except String Bool
  openRead : Except String Unit
  pickleLoad : Except String (DiskEntry α)
  pickleLoadRaw : Except String α

/-- `Cache._save_to_disk_cache` (src/src/data/cache.py lines 210-243) with
explicit primitive outcomes: the whole body is inside `try`, and the
`except` clause returns `False`. -/
def saveToDiskCacheRun {α : Type} (diskCacheEnabled : Bool)
    (fs : DiskFS α) : Except String Bool :=
  if diskCacheEnabled then
    match (do fs.openWrite; fs.pickleDump : Except String Unit) with
    | Except.ok _ => Except.ok true
    | Except.error _ => Except.ok false
  else Except.ok false

/-- `Cache._load_from_disk_cache` (src/src/data/cache.py lines 245-284)
with explicit primitive outcomes: the whole body is inside `try`, and the
`except` clause returns `(False, None)`. -/
def loadFromDiskCacheRun {α : Type} (diskCacheEnabled : Bool)
    (cacheTimeoutDays : Nat) (fs : DiskFS α) (now : Nat) :
    Except String (Bool × Option α) :=
  if diskCacheEnabled then
    match (do
        let ex ← fs.fileExists
        if ex then do
          fs.openRead
          let cd ← fs.pickleLoad
          if cacheTimeoutDays * 86400 < now - cd.timestamp then
            pure (false, (none : Option α))
          else
            pure (true, some cd.data)
        else
          pure (false, none) : Except String (Bool × Option α)) with
    | Except.ok r => Except.ok r
    | Except.error _ => Except.ok (false, none)
  else Except.ok (false, none)

/-- `DataLoader._save_to_disk_cache` of src/src/utils/data_loader.py
(lines 124-145): `os.makedirs`, `open(cache_file, 'wb')`, `pickle.dump` —
with no `try`/`except`, so a raised exception propagates to the caller;
the method returns `None` (here `Unit`). -/
def utilsSaveToDiskCache {α : Type} (diskCacheEnabled : Bool)
    (fs : DiskFS α) : Except String Unit :=
  if diskCacheEnabled then do
    fs.makedirs
    fs.openWrite
    fs.pickleDump
  else Except.ok ()

/-- `DataLoader._load_from_disk_cache` of src/src/utils/data_loader.py
(lines 147-177): after the `_is_cache_valid` mtime check (`cacheValid`),
`open` and `pickle.load` run inside `try`, and the `except` clause
returns `None`. -/
def utilsLoadFromDiskCache {α : Type} (diskCacheEnabled : Bool)
    (cacheValid : Bool) (fs : DiskFS α) : Except String (Option α) :=
  if diskCacheEnabled then
    if cacheValid then
      match (do fs.openRead; fs.pickleLoadRaw : Except String α) with
      | Except.ok d => Except.ok (some d)
      | Except.error _ => Except.ok none
    else Except.ok none
  else Except.ok none

/-- A file-level operation, for describing what `Cache._save_to_disk_cache`
does to the filesystem. -/
inductive FileOp
  | openWrite (path : String)
  | pickleDump (path : String)
  | renameFile (src dst : String)
  deriving DecidableEq

/-- The entry-file path `cache_dir / data_type / f"{cache_key}.pkl"`
(`Cache._get_cache_file_path`, lines 141-152). -/
def cacheFilePath (cacheDir dataType cacheKey : String) : String :=
  cacheDir ++ "/" ++ dataType ++ "/" ++ cacheKey ++ ".pkl"

/-- The sequence of file operations `Cache._save_to_disk_cache` (lines
225-239) performs on its success path: it opens the final entry file
directly with `open(cache_file, 'wb')` and pickles into it. -/
def saveToDiskCacheOps (cacheDir dataType cacheKey : String) : List FileOp :=
  [FileOp.openWrite (cacheFilePath cacheDir dataType cacheKey),
   FileOp.pickleDump (cacheFilePath cacheDir dataType cacheKey)]

/-- Stand-in for `hashlib.md5(...).hexdigest()` when instantiating the
model at concrete inputs. -/
def md5Stub : String → String := fun _ => "0123456789abcdef0123456789abcdef"

/-- A concrete `Cache Nat` with the constructor defaults except
`memory_optimization=False` (identity compaction), used to evaluate the
model at concrete inputs. -/
def cachePlain : Cache Nat :=
  { memoryOptimization := false, optimizeMemory := id, md5 := md5Stub }

/-- A concrete memory-only `Cache Nat` (disk tier disabled) at capacity
one, already holding a hot prices entry with five recorded accesses, used
to exhibit insertion-time eviction of a freshly written key. -/
def cacheEvict : Cache Nat :=
  { memoryCacheEnabled := true
    diskCacheEnabled := false
    memoryOptimization := false
    maxMemoryItems := 1
    optimizeMemory := id
    md5 := md5Stub
    prices := ⟨[("hot", 7)], [("hot", 5)], []⟩ }

/-- A concrete filesystem view in which `pickle.dump` raises
("disk full") and every other primitive succeeds. -/
def fsDumpError : DiskFS Nat :=
  { makedirs := Except.ok ()
    openWrite := Except.ok ()
    pickleDump := Except.error "disk full"
    fileExists := Except.ok true
    openRead := Except.ok ()
    pickleLoad := Except.error "unreachable"
    pickleLoadRaw := Except.error "unreachable" }

/-! ## Helper lemmas about the dict model -/

theorem dictContains_cons {α : Type} (p : String × α) (d : List (String × α))
    (k : String) :
    dictContains (p :: d) k = (decide (p.1 = k) || dictContains d k) := by
  simp [dictContains]

theorem dictGet?_cons {α : Type} (p : String × α) (d : List (String × α))
    (k : String) :
    dictGet? (p :: d) k = if p.1 = k then some p.2 else dictGet? d k := by
  by_cases hp : p.1 = k
  · simp [dictGet?, List.find?, hp]
  · simp [dictGet?, List.find?, hp]

theorem find?_update_self {α : Type} (d : List (String × α)) (k : String)
    (v : α) (h : dictContains d k = true) :
    (d.map fun p => if p.1 = k then (k, v) else p).find?
      (fun p => p.1 = k) = some (k, v) := by
  induction d with
  | nil => simp [dictContains] at h
  | cons p tl ih =>
    by_cases hp : p.1 = k
    · simp [List.find?, hp]
    · rw [dictContains_cons] at h
      simp only [Bool.or_eq_true, decide_eq_true_eq] at h
      rcases h with h | h
      · exact absurd h hp
      · simpa [List.find?, hp] using ih h

theorem find?_update_ne {α : Type} (d : List (String × α)) (k k' : String)
    (v : α) (h : k' ≠ k) :
    (d.map fun p => if p.1 = k then (k, v) else p).find?
      (fun p => p.1 = k') = d.find? (fun p => p.1 = k') := by
  induction d with
  | nil => rfl
  | cons p tl ih =>
    by_cases hp : p.1 = k
    · have h1 : ¬ ((k : String) = k') := fun hk => h hk.symm
      have h2 : ¬ p.1 = k' := by rw [hp]; exact h1
      simpa [List.find?, hp, h1, h2] using ih
    · by_cases hq : p.1 = k'
      · simp [List.find?, hp, hq, h]
      · simpa [List.find?, hp, hq] using ih

theorem find?_eq_none_of_not_contains {α : Type} (d : List (String × α))
    (k : String) (h : ¬ dictContains d k = true) :
    d.find? (fun p => p.1 = k) = none := by
  induction d with
  | nil => rfl
  | cons p tl ih =>
    rw [dictContains_cons] at h
    have hp : ¬ p.1 = k := by intro hk; simp [hk] at h
    have htl : ¬ dictContains tl k = true := by intro hk; simp [hk] at h
    simpa [List.find?, hp] using ih htl

theorem dictGet?_dictSet_self {α : Type} (d : List (String × α)) (k : String)
    (v : α) : dictGet? (dictSet d k v) k = some v := by
  unfold dictSet
  by_cases h : dictContains d k
  · simp [dictGet?, h, find?_update_self d k v h]
  · simp [dictGet?, h, List.find?_append,
      find?_eq_none_of_not_contains d k h, List.find?]

theorem dictGet?_dictSet_ne {α : Type} (d : List (String × α))
    (k k' : String) (v : α) (h : k' ≠ k) :
    dictGet? (dictSet d k v) k' = dictGet? d k' := by
  unfold dictSet
  by_cases hc : dictContains d k
  · simp [dictGet?, hc, find?_update_ne d k k' v h]
  · have h1 : ¬ ((k : String) = k') := fun hk => h hk.symm
    cases hfind : d.find? (fun p => p.1 = k') with
    | none => simp [dictGet?, hc, List.find?_append, hfind, List.find?, h1]
    | some q => simp [dictGet?, hc, List.find?_append, hfind]

theorem dictContains_eq_isSome {α : Type} (d : List (String × α))
    (k : String) : dictContains d k = (dictGet? d k).isSome := by
  induction d with
  | nil => rfl
  | cons p tl ih =>
    by_cases hp : p.1 = k
    · simp [dictContains_cons, dictGet?_cons, hp]
    · simpa [dictContains_cons, dictGet?_cons, hp] using ih

theorem dictContains_dictSet {α : Type} (d : List (String × α))
    (k k' : String) (v : α) :
    dictContains (dictSet d k v) k'
      = (decide (k' = k) || dictContains d k') := by
  by_cases h : k' = k
  · subst h
    simp [dictContains_eq_isSome, dictGet?_dictSet_self]
  · simp [dictContains_eq_isSome, dictGet?_dictSet_ne d k k' v h, h]

theorem dictContains_iff_mem_keys {α : Type} (d : List (String × α))
    (k : String) : dictContains d k = true ↔ k ∈ dictKeys d := by
  simp only [dictContains, dictKeys, List.any_eq_true, List.mem_map,
    decide_eq_true_eq]

theorem dictKeys_map_update {α : Type} (d : List (String × α)) (k : String)
    (v : α) :
    dictKeys (d.map fun p => if p.1 = k then (k, v) else p) = dictKeys d := by
  induction d with
  | nil => rfl
  | cons p tl ih =>
    by_cases hp : p.1 = k
    · simpa [dictKeys, hp] using ih
    · simpa [dictKeys, hp] using ih

theorem dictKeys_dictSet_of_contains {α : Type} (d : List (String × α))
    (k : String) (v : α) (h : dictContains d k = true) :
    dictKeys (dictSet d k v) = dictKeys d := by
  unfold dictSet
  rw [h, if_pos rfl]
  exact dictKeys_map_update d k v

theorem dictKeys_dictSet_of_not_contains {α : Type} (d : List (String × α))
    (k : String) (v : α) (h : ¬ dictContains d k = true) :
    dictKeys (dictSet d k v) = dictKeys d ++ [k] := by
  unfold dictSet
  simp [h, dictKeys]

theorem dictKeys_nodup_dictSet {α : Type} (d : List (String × α))
    (k : String) (v : α) (h : (dictKeys d).Nodup) :
    (dictKeys (dictSet d k v)).Nodup := by
  by_cases hc : dictContains d k
  · rw [dictKeys_dictSet_of_contains d k v hc]
    exact h
  · rw [dictKeys_dictSet_of_not_contains d k v hc]
    have hk : k ∉ dictKeys d := fun hm =>
      hc ((dictContains_iff_mem_keys d k).mpr hm)
    simpa [List.nodup_append] using ⟨h, hk⟩

theorem dictKeys_filter_key {α : Type} (d : List (String × α))
    (q : String → Bool) :
    dictKeys (d.filter fun p => q p.1) = (dictKeys d).filter q := by
  induction d with
  | nil => rfl
  | cons p tl ih =>
    by_cases hq : q p.1
    · simpa [dictKeys, List.filter, hq] using ih
    · simpa [dictKeys, List.filter, hq] using ih

theorem mem_dictSet_eq_of_key {α : Type} (d : List (String × α))
    (k : String) (v : α) :
    ∀ p ∈ dictSet d k v, p.1 = k → p.2 = v := by
  unfold dictSet
  by_cases hc : dictContains d k
  · rw [hc, if_pos rfl]
    intro p hp hk
    rcases List.mem_map.mp hp with ⟨q, _, hq⟩
    by_cases hq1 : q.1 = k
    · rw [if_pos hq1] at hq
      rw [← hq]
    · rw [if_neg hq1] at hq
      exact absurd (hq ▸ hk) hq1
  · rw [if_neg hc]
    intro p hp hk
    rcases List.mem_append.mp hp with hp | hp
    · exfalso
      exact hc (by
        simp only [dictContains, List.any_eq_true, decide_eq_true_eq]
        exact ⟨p, hp, hk⟩)
    · rcases List.mem_singleton.mp hp with rfl
      rfl

theorem dictGet?_of_uniform {α : Type} (d : List (String × α)) (k : String)
    (v : α) (hu : ∀ p ∈ d, p.1 = k → p.2 = v)
    (hc : dictContains d k = true) : dictGet? d k = some v := by
  induction d with
  | nil => simp [dictContains] at hc
  | cons p tl ih =>
    by_cases hp : p.1 = k
    · rw [dictGet?_cons, if_pos hp, hu p (List.mem_cons_self p tl) hp]
    · rw [dictGet?_cons, if_neg hp]
      rw [dictContains_cons] at hc
      simp only [Bool.or_eq_true, decide_eq_true_eq] at hc
      rcases hc with hc | hc
      · exact absurd hc hp
      · exact ih (fun q hq => hu q (List.mem_cons_of_mem p hq)) hc

theorem mem_of_mem_enforce {α : Type} (m : Nat) (d : List (String × α))
    (h : List (String × Nat)) :
    ∀ p ∈ (enforceMemoryLimits m d h).1, p ∈ d := by
  unfold enforceMemoryLimits
  by_cases hl : d.length ≤ m
  · simp [hl]
  · intro p hp
    simp only [hl, if_false] at hp
    exact List.mem_of_mem_filter hp

theorem mem_take_of_pair_sublist {β : Type} (s : List β) (a b : β) (n : Nat)
    (hnd : s.Nodup) (hsub : List.Sublist [a, b] s) (hb : b ∈ s.take n) :
    a ∈ s.take n := by
  induction s generalizing n with
  | nil => simp at hb
  | cons x tl ih =>
    cases n with
    | zero => simp at hb
    | succ n =>
      rw [List.take_succ_cons] at hb ⊢
      cases hsub with
      | cons₂ _ h => exact List.mem_cons_self _ _
      | cons _ h =>
        rcases List.mem_cons.mp hb with hb | hb
        · exfalso
          have hbtl : b ∈ tl := h.subset (by simp)
          rw [hb] at hbtl
          exact (List.nodup_cons.mp hnd).1 hbtl
        · exact List.mem_cons_of_mem x
            (ih n (List.nodup_cons.mp hnd).2 h hb)

theorem enforceMemoryLimits_keys {α : Type} (m : Nat)
    (d : List (String × α)) (h : List (String × Nat))
    (hl : ¬ d.length ≤ m) :
    dictKeys (enforceMemoryLimits m d h).1
      = (dictKeys d).filter (fun x =>
          !(((dictKeys d).insertionSort
              (fun a b => hitsGet h a ≤ hitsGet h b)).take
            (d.length - m)).contains x) := by
  simp only [enforceMemoryLimits, if_neg hl]
  exact dictKeys_filter_key d
    (fun x =>
      !(((dictKeys d).insertionSort
          (fun a b => hitsGet h a ≤ hitsGet h b)).take
        (d.length - m)).contains x)

theorem length_filter_not_mem_take {β : Type} [DecidableEq β]
    (keys s : List β) (n : Nat) (hperm : s.Perm keys) (hnd : keys.Nodup) :
    (keys.filter (fun x => !((s.take n).contains x))).length
      = keys.length - n := by
  have hnds : s.Nodup := hperm.nodup_iff.mpr hnd
  have hfperm : (keys.filter (fun x => !((s.take n).contains x))).Perm
      (s.filter (fun x => !((s.take n).contains x))) :=
    (hperm.filter _).symm
  rw [hfperm.length_eq]
  have hdisj : List.Disjoint (s.take n) (s.drop n) :=
    List.disjoint_take_drop hnds (Nat.le_refl n)
  have h1 : (s.take n).filter (fun x => !((s.take n).contains x)) = [] := by
    rw [List.filter_eq_nil_iff]
    intro x hx
    simp [List.contains, List.elem_iff, hx]
  have h2 : (s.drop n).filter (fun x => !((s.take n).contains x))
      = s.drop n := by
    rw [List.filter_eq_self]
    intro x hx
    simp only [Bool.not_eq_true', List.contains]
    rw [List.elem_eq_mem]
    simp only [decide_eq_false_iff_not]
    intro hmem
    exact absurd hx (hdisj hmem)
  have hsplit : s.filter (fun x => !((s.take n).contains x))
      = (s.take n ++ s.drop n).filter (fun x => !((s.take n).contains x)) := by
    rw [List.take_append_drop]
  rw [hsplit, List.filter_append, h1, h2, List.nil_append, List.length_drop,
    hperm.length_eq]

theorem enforceMemoryLimits_length {α : Type} (m : Nat)
    (d : List (String × α)) (h : List (String × Nat))
    (hnd : (dictKeys d).Nodup) :
    ((enforceMemoryLimits m d h).1).length = min d.length m := by
  by_cases hl : d.length ≤ m
  · simp only [enforceMemoryLimits, if_pos hl]
    exact (Nat.min_eq_left hl).symm
  · have hlen : ((enforceMemoryLimits m d h).1).length
        = (dictKeys (enforceMemoryLimits m d h).1).length := by
      simp [dictKeys]
    rw [hlen, enforceMemoryLimits_keys m d h hl,
      length_filter_not_mem_take (dictKeys d)
        ((dictKeys d).insertionSort (fun a b => hitsGet h a ≤ hitsGet h b))
        (d.length - m) (List.perm_insertionSort _ _) hnd]
    have hkl : (dictKeys d).length = d.length := by simp [dictKeys]
    rw [hkl]
    omega

theorem enforceMemoryLimits_of_le {α : Type} (m : Nat)
    (d : List (String × α)) (h : List (String × Nat)) (hl : d.length ≤ m) :
    enforceMemoryLimits m d h = (d, h) := by
  simp [enforceMemoryLimits, hl]

theorem mem_keys_enforce_iff {α : Type} (m : Nat) (d : List (String × α))
    (h : List (String × Nat)) (hl : ¬ d.length ≤ m) (x : String) :
    x ∈ dictKeys (enforceMemoryLimits m d h).1
      ↔ x ∈ dictKeys d ∧
        x ∉ (((dictKeys d).insertionSort
            (fun a b => hitsGet h a ≤ hitsGet h b)).take (d.length - m)) := by
  rw [enforceMemoryLimits_keys m d h hl, List.mem_filter]
  simp [List.contains, List.elem_iff]

theorem foldl_dictSet_get {ε α : Type} (fetch : String → Except ε α)
    (emptyDataFrame : α) (l : List String) (d : List (String × α))
    (t : String) :
    dictGet? (l.foldl
        (fun result ticker =>
          dictSet result ticker (fetchOrMarker fetch emptyDataFrame ticker))
        d) t
      = if t ∈ l then some (fetchOrMarker fetch emptyDataFrame t)
        else dictGet? d t := by
  induction l generalizing d with
  | nil => simp
  | cons a l ih =>
    rw [List.foldl_cons, ih]
    by_cases hmem : t ∈ l
    · simp [hmem, List.mem_cons]
    · by_cases hta : t = a
      · subst hta
        simp [hmem, dictGet?_dictSet_self]
      · simp [hmem, hta, dictGet?_dictSet_ne _ _ _ _ hta]

theorem foldl_dictSet_contains {ε α : Type} (fetch : String → Except ε α)
    (emptyDataFrame : α) (l : List String) (d : List (String × α))
    (t : String) :
    dictContains (l.foldl
        (fun result ticker =>
          dictSet result ticker (fetchOrMarker fetch emptyDataFrame ticker))
        d) t
      = (decide (t ∈ l) || dictContains d t) := by
  rw [dictContains_eq_isSome, foldl_dictSet_get, dictContains_eq_isSome]
  by_cases hmem : t ∈ l
  · simp [hmem]
  · simp [hmem]

theorem setOp_eq {α : Type} (diskE memOpt : Bool) (opt : α → α)
    (maxI : Nat) (dom : DomainState α) (key : String) (data : α)
    (now : Nat) :
    setOp true diskE memOpt opt maxI dom key data now
      = { mem := (enforceMemoryLimits maxI
            (dictSet dom.mem key (if memOpt then opt data else data))
            (updateCacheHit dom.hits key)).1,
          hits := (enforceMemoryLimits maxI
            (dictSet dom.mem key (if memOpt then opt data else data))
            (updateCacheHit dom.hits key)).2,
          disk := if diskE then dictSet dom.disk key
              ⟨now, if memOpt then opt data else data⟩ else dom.disk } := by
  cases diskE <;> simp [setOp, saveToDiskCache]

theorem getOp_setOp_roundTrip {α : Type} (memOpt : Bool) (opt : α → α)
    (t maxI : Nat) (dom : DomainState α) (key : String) (data : α)
    (now : Nat) :
    (getOp true true t maxI
        (setOp true true memOpt opt maxI dom key data now) key now).1
      = some (if memOpt then opt data else data) := by
  rw [setOp_eq]
  by_cases hc : dictContains (enforceMemoryLimits maxI
      (dictSet dom.mem key (if memOpt then opt data else data))
      (updateCacheHit dom.hits key)).1 key
  · simp only [getOp, hc, Bool.and_self, if_pos, Bool.true_and, if_true]
    exact dictGet?_of_uniform _ key _
      (fun p hp => mem_dictSet_eq_of_key dom.mem key _ p
        (mem_of_mem_enforce _ _ _ p hp))
      hc
  · simp only [getOp, hc, Bool.true_and, if_neg, Bool.false_eq_true,
      not_false_eq_true, if_false]
    simp only [getOpDisk, loadFromDiskCache, if_pos, if_true]
    rw [dictGet?_dictSet_self]
    simp [Nat.sub_self]

/-! ## Claim theorems -/

/-- Claim C10: `get_cache` is a process-wide singleton accessor.  Starting
from the uninitialised module global (`none`), the first call constructs a
`Cache` with the default constructor configuration; from any state, calling
`get_cache` twice returns the same instance and leaves the stored global
unchanged after the first call. -/
theorem C10_get_cache_singleton {α : Type} (optimizeMemory : α → α)
    (md5 : String → String) (st : Option (Cache α)) :
    (get_cache optimizeMemory md5 none).1 = defaultCache optimizeMemory md5
    ∧ (defaultCache optimizeMemory md5).memoryCacheEnabled = true
    ∧ (defaultCache optimizeMemory md5).diskCacheEnabled = true
    ∧ (defaultCache optimizeMemory md5).cacheTimeoutDays = 1
    ∧ (defaultCache optimizeMemory md5).memoryOptimization = true
    ∧ (defaultCache optimizeMemory md5).maxMemoryItems = 1000
    ∧ (get_cache optimizeMemory md5
          ((get_cache optimizeMemory md5 st).2)).1
        = (get_cache optimizeMemory md5 st).1
    ∧ (get_cache optimizeMemory md5
          ((get_cache optimizeMemory md5 st).2)).2
        = (get_cache optimizeMemory md5 st).2 := by
  refine ⟨rfl, rfl, rfl, rfl, rfl, rfl, ?_, ?_⟩ <;> cases st <;> rfl

/-- Claim C9 counterexample: `Cache._save_to_disk_cache` performs no
rename at all — it opens the final entry file directly — so the entry file
for a concrete key is not produced by a write-to-temporary-then-rename
step. -/
theorem C9_counterexample :
    FileOp.openWrite (cacheFilePath "cache" "prices" "aapl")
        ∈ saveToDiskCacheOps "cache" "prices" "aapl"
    ∧ ¬ ∃ src dst, FileOp.renameFile src dst
        ∈ saveToDiskCacheOps "cache" "prices" "aapl" := by
  constructor
  · simp [saveToDiskCacheOps]
  · rintro ⟨src, dst, hmem⟩
    simp [saveToDiskCacheOps, cacheFilePath] at hmem

/-- Claim C9 (amended): every disk cache entry file is written in place —
`_save_to_disk_cache` opens the final per-key path (the same path the
loader reads) with `open(cache_file, 'wb')` and pickles into it, and
performs no rename; no write-to-temporary-then-rename step exists, so the
writer provides no atomicity against a concurrent reader. -/
theorem C9_amended_direct_write (cacheDir dataType cacheKey : String) :
    saveToDiskCacheOps cacheDir dataType cacheKey
      = [FileOp.openWrite (cacheFilePath cacheDir dataType cacheKey),
         FileOp.pickleDump (cacheFilePath cacheDir dataType cacheKey)]
    ∧ ∀ src dst, FileOp.renameFile src dst
        ∉ saveToDiskCacheOps cacheDir dataType cacheKey := by
  refine ⟨rfl, ?_⟩
  intro src dst hmem
  simp [saveToDiskCacheOps] at hmem

/-- Claim C8 counterexample: in `DataLoader._save_to_disk_cache` of
src/src/utils/data_loader.py there is no exception handler, so a failing
`pickle.dump` propagates out of the cache layer instead of degrading to a
no-op write. -/
theorem C8_counterexample :
    utilsSaveToDiskCache true fsDumpError = Except.error "disk full" := rfl

/-- Claim C8 (amended): in `Cache` (src/src/data/cache.py) every internal
disk error is caught — `_save_to_disk_cache` always returns a boolean and
returns `False` whenever `open` or `pickle.dump` raises, and
`_load_from_disk_cache` always returns a pair and returns `(False, None)`
whenever `exists`/`open`/`pickle.load` raises; in the utils `DataLoader`,
`_load_from_disk_cache` likewise degrades read errors to `None`, but
`_save_to_disk_cache` catches nothing: a disk-write error propagates to
the caller (and its return value is `None`, not `False`). -/
theorem C8_amended_disk_errors :
    (∀ (α : Type) (fs : DiskFS α),
        ∃ b, saveToDiskCacheRun true fs = Except.ok b)
    ∧ (∀ (α : Type) (fs : DiskFS α) (e : String),
        fs.openWrite = Except.error e →
        saveToDiskCacheRun true fs = Except.ok false)
    ∧ (∀ (α : Type) (fs : DiskFS α) (e : String),
        fs.pickleDump = Except.error e →
        saveToDiskCacheRun true fs = Except.ok false)
    ∧ (∀ (α : Type) (fs : DiskFS α) (t now : Nat),
        ∃ r, loadFromDiskCacheRun true t fs now = Except.ok r)
    ∧ (∀ (α : Type) (fs : DiskFS α) (t now : Nat) (e : String),
        fs.fileExists = Except.error e →
        loadFromDiskCacheRun true t fs now = Except.ok (false, none))
    ∧ (∀ (α : Type) (fs : DiskFS α) (t now : Nat) (e : String),
        fs.fileExists = Except.ok true → fs.openRead = Except.ok () →
        fs.pickleLoad = Except.error e →
        loadFromDiskCacheRun true t fs now = Except.ok (false, none))
    ∧ (∀ (α : Type) (fs : DiskFS α) (cacheValid : Bool) (e : String),
        fs.openRead = Except.ok () → fs.pickleLoadRaw = Except.error e →
        utilsLoadFromDiskCache true cacheValid fs = Except.ok none)
    ∧ (∀ (α : Type) (fs : DiskFS α) (e : String),
        fs.makedirs = Except.ok () → fs.openWrite = Except.ok () →
        fs.pickleDump = Except.error e →
        utilsSaveToDiskCache true fs = Except.error e) := by
  refine ⟨?_, ?_, ?_, ?_, ?_, ?_, ?_, ?_⟩
  · intro α fs
    cases ho : fs.openWrite with
    | error e =>
      exact ⟨false, by simp [saveToDiskCacheRun, Bind.bind, Except.bind, ho]⟩
    | ok u =>
      cases hd : fs.pickleDump with
      | error e =>
        exact ⟨false,
          by simp [saveToDiskCacheRun, Bind.bind, Except.bind, ho, hd]⟩
      | ok v =>
        exact ⟨true,
          by simp [saveToDiskCacheRun, Bind.bind, Except.bind, ho, hd]⟩
  · intro α fs e ho
    simp [saveToDiskCacheRun, Bind.bind, Except.bind, ho]
  · intro α fs e hd
    cases ho : fs.openWrite with
    | error e2 => simp [saveToDiskCacheRun, Bind.bind, Except.bind, ho]
    | ok u => simp [saveToDiskCacheRun, Bind.bind, Except.bind, ho, hd]
  · intro α fs t now
    cases hx : fs.fileExists with
    | error e =>
      exact ⟨(false, none),
        by simp [loadFromDiskCacheRun, Bind.bind, Except.bind, hx]⟩
    | ok ex =>
      cases ex with
      | false =>
        exact ⟨(false, none),
          by simp [loadFromDiskCacheRun, Bind.bind, Except.bind, hx,
            Pure.pure, Except.pure]⟩
      | true =>
        cases ho : fs.openRead with
        | error e =>
          exact ⟨(false, none),
            by simp [loadFromDiskCacheRun, Bind.bind, Except.bind, hx, ho]⟩
        | ok u =>
          cases hl : fs.pickleLoad with
          | error e =>
            exact ⟨(false, none),
              by simp [loadFromDiskCacheRun, Bind.bind, Except.bind, hx,
                ho, hl]⟩
          | ok cd =>
            by_cases hage : t * 86400 < now - cd.timestamp
            · exact ⟨(false, none),
                by simp [loadFromDiskCacheRun, Bind.bind, Except.bind, hx,
                  ho, hl, hage, Pure.pure, Except.pure]⟩
            · exact ⟨(true, some cd.data),
                by simp [loadFromDiskCacheRun, Bind.bind, Except.bind, hx,
                  ho, hl, hage, Pure.pure, Except.pure]⟩
  · intro α fs t now e hx
    simp [loadFromDiskCacheRun, Bind.bind, Except.bind, hx]
  · intro α fs t now e hx ho hl
    simp [loadFromDiskCacheRun, Bind.bind, Except.bind, hx, ho, hl]
  · intro α fs cacheValid e ho hl
    cases cacheValid with
    | false => simp [utilsLoadFromDiskCache]
    | true => simp [utilsLoadFromDiskCache, Bind.bind, Except.bind, ho, hl]
  · intro α fs e hm ho hd
    simp [utilsSaveToDiskCache, Bind.bind, Except.bind, hm, ho, hd]

/-- Claim C8 (amended) witness: the caught write failure at a concrete
filesystem — `Cache._save_to_disk_cache` returns `False` when
`pickle.dump` raises. -/
theorem C8_amended_witness :
    saveToDiskCacheRun true fsDumpError = Except.ok false :=
  C8_amended_disk_errors.2.2.1 Nat fsDumpError "disk full" rfl

/-- Claim C2 counterexample: for the non-empty singleton batch `["A"]`
whose only per-item fetch raises, `load_stocks_data` takes the direct
single-ticker path, which has no exception handler — the batch call itself
raises instead of returning a failure marker for `"A"`. -/
theorem C2_counterexample :
    load_stocks_data (fun _ => (Except.error 0 : Except Nat Nat)) 0 ["A"]
      = Except.error 0 := rfl

theorem batch_foldl_spec {ε α : Type} (fetch : String → Except ε α)
    (emptyDataFrame : α) (tickers : List String) :
    (∀ t, dictContains (tickers.foldl
        (fun result ticker =>
          dictSet result ticker (fetchOrMarker fetch emptyDataFrame ticker))
        []) t = true ↔ t ∈ tickers)
    ∧ (∀ t ∈ tickers, dictGet? (tickers.foldl
        (fun result ticker =>
          dictSet result ticker (fetchOrMarker fetch emptyDataFrame ticker))
        []) t = some (fetchOrMarker fetch emptyDataFrame t)) := by
  constructor
  · intro t
    rw [foldl_dictSet_contains]
    simp [dictContains]
  · intro t ht
    rw [foldl_dictSet_get]
    simp [ht]

/-- Claim C2 (amended): batch fetch isolation and completeness for both
batch loaders.  (1) `DataLoader.load_stocks_data`
(src/src/data/data_loader.py): for every list of at least two
identifiers, the batch returns a dict keyed exactly by the requested
identifiers, an identifier whose fetch raises contributes the empty
`DataFrame` marker, each entry is determined by its own fetch alone, and
the call never raises; for a singleton list the fetch runs outside the
worker wrapper and its exception propagates.  (2) The parallel path of
`DataLoader.load_stock_data` (src/src/utils/data_loader.py) isolates
failures identically, with the empty-dict `{}` marker.  (3) Its singleton
path calls `_load_single_stock_data` with no handler, so the batch call
never raises exactly when the per-item loader does not; (4) and
`_load_single_stock_data` itself catches a per-item API-fetch failure
inside its own `try`, substituting the empty `DataFrame` marker — so an
upstream fetch failure never raises out of the utils batch for any
non-empty list. -/
theorem C2_amended_batch_isolation :
    (∀ (ε α : Type) (fetch : String → Except ε α) (emptyDataFrame : α)
        (tickers : List String), 2 ≤ tickers.length →
        ∃ r, load_stocks_data fetch emptyDataFrame tickers = Except.ok r
          ∧ (∀ t, dictContains r t = true ↔ t ∈ tickers)
          ∧ (∀ t ∈ tickers, dictGet? r t
              = some (fetchOrMarker fetch emptyDataFrame t)))
    ∧ (∀ (ε α : Type) (loadSingle : String → Except ε α) (emptyDict : α)
        (tickers : List String), 2 ≤ tickers.length →
        ∃ r, load_stock_data loadSingle emptyDict tickers = Except.ok r
          ∧ (∀ t, dictContains r t = true ↔ t ∈ tickers)
          ∧ (∀ t ∈ tickers, dictGet? r t
              = some (fetchOrMarker loadSingle emptyDict t)))
    ∧ (∀ (ε α : Type) (loadSingle : String → Except ε α) (emptyDict : α)
        (tickers : List String), tickers ≠ [] →
        (∀ t, ∃ d, loadSingle t = Except.ok d) →
        ∃ r, load_stock_data loadSingle emptyDict tickers = Except.ok r
          ∧ (∀ t, dictContains r t = true ↔ t ∈ tickers)
          ∧ (∀ t ∈ tickers, dictGet? r t
              = some (fetchOrMarker loadSingle emptyDict t)))
    ∧ (∀ (ε α : Type) (apiFetch : Except ε α)
        (postFetch : α → Except ε α) (emptyDataFrame : α),
        (∃ d, loadSinglePricesRun apiFetch postFetch emptyDataFrame
            = Except.ok d)
        ∧ ∀ e, apiFetch = Except.error e →
            loadSinglePricesRun apiFetch postFetch emptyDataFrame
              = Except.ok emptyDataFrame) := by
  refine ⟨?_, ?_, ?_, ?_⟩
  · intro ε α fetch emptyDataFrame tickers hlen
    match tickers, hlen with
    | t₁ :: t₂ :: rest, _ =>
      exact ⟨_, rfl, (batch_foldl_spec fetch emptyDataFrame _).1,
        (batch_foldl_spec fetch emptyDataFrame _).2⟩
  · intro ε α loadSingle emptyDict tickers hlen
    match tickers, hlen with
    | t₁ :: t₂ :: rest, _ =>
      exact ⟨_, rfl, (batch_foldl_spec loadSingle emptyDict _).1,
        (batch_foldl_spec loadSingle emptyDict _).2⟩
  · intro ε α loadSingle emptyDict tickers hne htotal
    cases tickers with
    | nil => exact absurd rfl hne
    | cons t₁ rest =>
      cases rest with
      | nil =>
        obtain ⟨d, hd⟩ := htotal t₁
        refine ⟨dictSet [] t₁ d, ?_, ?_, ?_⟩
        · simp [load_stock_data, hd]
        · intro t
          rw [dictContains_dictSet]
          simp [dictContains]
        · intro t ht
          rcases List.mem_singleton.mp ht with rfl
          rw [dictGet?_dictSet_self]
          unfold fetchOrMarker
          rw [hd]
      | cons t₂ rest₂ =>
        exact ⟨_, rfl, (batch_foldl_spec loadSingle emptyDict _).1,
          (batch_foldl_spec loadSingle emptyDict _).2⟩
  · intro ε α apiFetch postFetch emptyDataFrame
    constructor
    · cases haf : apiFetch with
      | error e =>
        exact ⟨emptyDataFrame,
          by simp [loadSinglePricesRun, Bind.bind, Except.bind, haf]⟩
      | ok d =>
        cases hpf : postFetch d with
        | error e =>
          exact ⟨emptyDataFrame,
            by simp [loadSinglePricesRun, Bind.bind, Except.bind, haf, hpf]⟩
        | ok d2 =>
          exact ⟨d2,
            by simp [loadSinglePricesRun, Bind.bind, Except.bind, haf, hpf]⟩
    · intro e he
      simp [loadSinglePricesRun, Bind.bind, Except.bind, he]

/-- Claim C2 (amended) witness: a three-ticker batch through each loader
where the middle fetch raises — every ticker gets an entry, with the
failure marker for the failing one — and a singleton utils batch whose
per-item loader never raises returns normally. -/
theorem C2_amended_witness :
    (∃ r, load_stocks_data
          (fun t => if t = "B" then Except.error 0
                    else (Except.ok 1 : Except Nat Nat)) 7 ["A", "B", "C"]
        = Except.ok r
      ∧ (∀ t, dictContains r t = true ↔ t ∈ ["A", "B", "C"])
      ∧ (∀ t ∈ ["A", "B", "C"],
          dictGet? r t = some (fetchOrMarker
            (fun t => if t = "B" then Except.error 0
                      else (Except.ok 1 : Except Nat Nat)) 7 t)))
    ∧ (∃ r, load_stock_data
          (fun t => if t = "B" then Except.error 0
                    else (Except.ok 1 : Except Nat Nat)) 7 ["A", "B", "C"]
        = Except.ok r
      ∧ (∀ t, dictContains r t = true ↔ t ∈ ["A", "B", "C"])
      ∧ (∀ t ∈ ["A", "B", "C"],
          dictGet? r t = some (fetchOrMarker
            (fun t => if t = "B" then Except.error 0
                      else (Except.ok 1 : Except Nat Nat)) 7 t)))
    ∧ (∃ r, load_stock_data
          (fun _ => (Except.ok 1 : Except Nat Nat)) 7 ["A"]
        = Except.ok r
      ∧ (∀ t, dictContains r t = true ↔ t ∈ ["A"])
      ∧ (∀ t ∈ ["A"],
          dictGet? r t = some (fetchOrMarker
            (fun _ => (Except.ok 1 : Except Nat Nat)) 7 t))) :=
  ⟨C2_amended_batch_isolation.1 Nat Nat _ 7 ["A", "B", "C"] (by decide),
   C2_amended_batch_isolation.2.1 Nat Nat _ 7 ["A", "B", "C"] (by decide),
   C2_amended_batch_isolation.2.2.1 Nat Nat _ 7 ["A"] (by decide)
     (fun _ => ⟨1, rfl⟩)⟩

/-- Claim C1 counterexample: with only the memory cache enabled (disk
tier disabled) the write-then-read round-trip fails.  On a cache at
capacity holding a hotter resident, `set_prices` inserts the fresh key
with hit count one, `_enforce_memory_limits` synchronously evicts it as
the least-used entry, and the immediate `get_prices` misses both tiers
and returns `None` instead of the stored payload. -/
theorem C1_counterexample :
    cacheEvict.memoryCacheEnabled = true
    ∧ ((cacheEvict.set_prices "AAPL" "2024-01-01" "2024-01-31" 42 0
          ).get_prices "AAPL" "2024-01-01" "2024-01-31" 0).1 = none := by
  constructor
  · rfl
  · decide

/-- Claim C1 (amended): write-then-read round-trip.  For a cache with the
memory and disk tiers both enabled (the constructor defaults), writing a
payload under any ticker and parameter set and immediately reading it
back returns the stored payload — the written value up to the
value-preserving compaction transform applied at write time — for all
five data types.  (With the disk tier disabled, insertion-time eviction
can remove the freshly written key and the read then returns `None`.) -/
theorem C1_round_trip {α : Type} (c : Cache α)
    (hm : c.memoryCacheEnabled = true) (hd : c.diskCacheEnabled = true)
    (ticker start_date end_date : String) (data : α) (now : Nat)
    (query_params : List (String × String)) (days : Nat) :
    ((c.set_prices ticker start_date end_date data now).get_prices
        ticker start_date end_date now).1
      = some (if c.memoryOptimization then c.optimizeMemory data else data)
    ∧ ((c.set_metrics ticker data now).get_metrics ticker now).1
      = some (if c.memoryOptimization then c.optimizeMemory data else data)
    ∧ ((c.set_line_items ticker data query_params now).get_line_items
        ticker query_params now).1
      = some (if c.memoryOptimization then c.optimizeMemory data else data)
    ∧ ((c.set_insider_trades ticker data now).get_insider_trades
        ticker now).1
      = some (if c.memoryOptimization then c.optimizeMemory data else data)
    ∧ ((c.set_company_news ticker data days now).get_company_news
        ticker days now).1
      = some (if c.memoryOptimization then c.optimizeMemory data else data)
    := by
  refine ⟨?_, ?_, ?_, ?_, ?_⟩ <;>
    simp only [Cache.set_prices, Cache.get_prices, Cache.set_metrics,
      Cache.get_metrics, Cache.set_line_items, Cache.get_line_items,
      Cache.set_insider_trades, Cache.get_insider_trades,
      Cache.set_company_news, Cache.get_company_news, hm, hd] <;>
    exact getOp_setOp_roundTrip c.memoryOptimization c.optimizeMemory
      c.cacheTimeoutDays c.maxMemoryItems _ _ data now

/-- Claim C1 witness: a concrete round-trip through every data type on a
default-configured cache (with identity compaction). -/
theorem C1_round_trip_witness :
    ((cachePlain.set_prices "AAPL" "2024-01-01" "2024-01-31" 42 5).get_prices
        "AAPL" "2024-01-01" "2024-01-31" 5).1
      = some (if cachePlain.memoryOptimization
          then cachePlain.optimizeMemory 42 else 42)
    ∧ ((cachePlain.set_metrics "AAPL" 42 5).get_metrics "AAPL" 5).1
      = some (if cachePlain.memoryOptimization
          then cachePlain.optimizeMemory 42 else 42)
    ∧ ((cachePlain.set_line_items "AAPL" 42 [("period", "ttm")] 5
          ).get_line_items "AAPL" [("period", "ttm")] 5).1
      = some (if cachePlain.memoryOptimization
          then cachePlain.optimizeMemory 42 else 42)
    ∧ ((cachePlain.set_insider_trades "AAPL" 42 5).get_insider_trades
        "AAPL" 5).1
      = some (if cachePlain.memoryOptimization
          then cachePlain.optimizeMemory 42 else 42)
    ∧ ((cachePlain.set_company_news "AAPL" 42 30 5).get_company_news
        "AAPL" 30 5).1
      = some (if cachePlain.memoryOptimization
          then cachePlain.optimizeMemory 42 else 42) :=
  C1_round_trip cachePlain rfl rfl "AAPL" "2024-01-01" "2024-01-31" 42 5
    [("period", "ttm")] 30

/-- Claim C3: memory capacity invariant.  After every completed write
(`set_*` body, first conjunct) and every disk-hit promotion during a read
(second conjunct), the in-memory dict holds at most `max_memory_items`
entries; when the insertion leaves the dict within the limit nothing is
evicted, and when it pushes the size above the limit, eviction removes
exactly `size - max_memory_items` entries synchronously, leaving exactly
`max_memory_items`. -/
theorem C3_memory_capacity {α : Type} :
    (∀ (diskE memOpt : Bool) (opt : α → α) (maxI : Nat)
        (dom : DomainState α) (key : String) (data : α) (now : Nat),
        (dictKeys dom.mem).Nodup →
        ((setOp true diskE memOpt opt maxI dom key data now).mem.length
            ≤ maxI
         ∧ ((dictSet dom.mem key
              (if memOpt then opt data else data)).length ≤ maxI →
            (setOp true diskE memOpt opt maxI dom key data now).mem
              = dictSet dom.mem key (if memOpt then opt data else data))
         ∧ (maxI < (dictSet dom.mem key
              (if memOpt then opt data else data)).length →
            (setOp true diskE memOpt opt maxI dom key data now).mem.length
              = maxI)))
    ∧ (∀ (t maxI : Nat) (dom : DomainState α) (key : String) (now : Nat)
        (e : DiskEntry α),
        (dictKeys dom.mem).Nodup →
        dictContains dom.mem key = false →
        dictGet? dom.disk key = some e →
        now - e.timestamp ≤ t * 86400 →
        ((getOp true true t maxI dom key now).2.1.mem.length ≤ maxI
         ∧ (maxI < (dictSet dom.mem key e.data).length →
            (getOp true true t maxI dom key now).2.1.mem.length = maxI)))
    := by
  constructor
  · intro diskE memOpt opt maxI dom key data now hnd
    have hnd2 := dictKeys_nodup_dictSet dom.mem key
      (if memOpt then opt data else data) hnd
    have hlen := enforceMemoryLimits_length maxI
      (dictSet dom.mem key (if memOpt then opt data else data))
      (updateCacheHit dom.hits key) hnd2
    refine ⟨?_, ?_, ?_⟩
    · rw [setOp_eq]
      dsimp only
      rw [hlen]
      exact Nat.min_le_right _ _
    · intro hle
      rw [setOp_eq]
      dsimp only
      rw [enforceMemoryLimits_of_le _ _ _ hle]
    · intro hgt
      rw [setOp_eq]
      dsimp only
      rw [hlen]
      omega
  · intro t maxI dom key now e hnd hc hdisk hfresh
    have heq : (getOp true true t maxI dom key now).2.1.mem
        = (enforceMemoryLimits maxI (dictSet dom.mem key e.data)
            (updateCacheHit dom.hits key)).1 := by
      simp [getOp, hc, getOpDisk, loadFromDiskCache, hdisk,
        Nat.not_lt.mpr hfresh]
    have hnd2 := dictKeys_nodup_dictSet dom.mem key e.data hnd
    have hlen := enforceMemoryLimits_length maxI
      (dictSet dom.mem key e.data) (updateCacheHit dom.hits key) hnd2
    refine ⟨?_, ?_⟩
    · rw [heq, hlen]
      exact Nat.min_le_right _ _
    · intro hgt
      rw [heq, hlen]
      omega

/-- Claim C3 witness: a concrete write into a one-entry dict with capacity
one — the insertion pushes the size to two and eviction synchronously
brings it back to exactly one. -/
theorem C3_memory_capacity_witness :
    (setOp true false false (id : Nat → Nat) 1
        ⟨[("a", 1)], [("a", 1)], []⟩ "b" 2 0).mem.length ≤ 1
    ∧ ((dictSet ([("a", (1 : Nat))]) "b"
          (if false then id 2 else 2)).length ≤ 1 →
        (setOp true false false (id : Nat → Nat) 1
            ⟨[("a", 1)], [("a", 1)], []⟩ "b" 2 0).mem
          = dictSet [("a", 1)] "b" (if false then id 2 else 2))
    ∧ (1 < (dictSet ([("a", (1 : Nat))]) "b"
          (if false then id 2 else 2)).length →
        (setOp true false false (id : Nat → Nat) 1
            ⟨[("a", 1)], [("a", 1)], []⟩ "b" 2 0).mem.length = 1) :=
  C3_memory_capacity.1 false false id 1 ⟨[("a", 1)], [("a", 1)], []⟩
    "b" 2 0 (by decide)

/-- Claim C4: LRU eviction order.  Whenever `_enforce_memory_limits`
evicts, (1) every evicted key has a hit count at most that of every
surviving key; (2) if eviction occurs, a key whose hit count is strictly
below that of every other key — e.g. a cold entry written once and never
re-read — is evicted; (3) ties among equal counters are broken
deterministically by the dict's insertion order (the stable sort keeps the
earlier key first, so if the later of two tied keys is evicted, the
earlier one is too). -/
theorem C4_lru_eviction_order {α : Type} (m : Nat) (d : List (String × α))
    (h : List (String × Nat)) (hnd : (dictKeys d).Nodup) :
    (∀ k k', k ∈ dictKeys d →
        k ∉ dictKeys (enforceMemoryLimits m d h).1 →
        k' ∈ dictKeys (enforceMemoryLimits m d h).1 →
        hitsGet h k ≤ hitsGet h k')
    ∧ (m < d.length → ∀ k₀, k₀ ∈ dictKeys d →
        (∀ k', k' ∈ dictKeys d → k' ≠ k₀ → hitsGet h k₀ < hitsGet h k') →
        k₀ ∉ dictKeys (enforceMemoryLimits m d h).1)
    ∧ (∀ k₁ k₂, hitsGet h k₁ = hitsGet h k₂ →
        List.Sublist [k₁, k₂] (dictKeys d) →
        k₂ ∉ dictKeys (enforceMemoryLimits m d h).1 →
        k₁ ∉ dictKeys (enforceMemoryLimits m d h).1) := by
  by_cases hl : d.length ≤ m
  · rw [enforceMemoryLimits_of_le m d h hl]
    refine ⟨?_, ?_, ?_⟩
    · intro k k' hk hkE _
      exact absurd hk hkE
    · intro hml
      omega
    · intro k₁ k₂ _ hsub hk₂E
      exact absurd (hsub.subset (by simp)) hk₂E
  · haveI : IsTotal String (fun a b => hitsGet h a ≤ hitsGet h b) :=
      ⟨fun a b => Nat.le_total _ _⟩
    haveI : IsTrans String (fun a b => hitsGet h a ≤ hitsGet h b) :=
      ⟨fun a b c hab hbc => Nat.le_trans hab hbc⟩
    have hperm : List.Perm ((dictKeys d).insertionSort
        (fun a b => hitsGet h a ≤ hitsGet h b)) (dictKeys d) :=
      List.perm_insertionSort _ _
    have hsorted : List.Sorted (fun a b => hitsGet h a ≤ hitsGet h b)
        ((dictKeys d).insertionSort
          (fun a b => hitsGet h a ≤ hitsGet h b)) :=
      List.sorted_insertionSort _ _
    have hnds : ((dictKeys d).insertionSort
        (fun a b => hitsGet h a ≤ hitsGet h b)).Nodup :=
      hperm.nodup_iff.mpr hnd
    have hmemiff := mem_keys_enforce_iff m d h hl
    have hdrop : ∀ x, x ∈ dictKeys d →
        x ∉ (((dictKeys d).insertionSort
            (fun a b => hitsGet h a ≤ hitsGet h b)).take (d.length - m)) →
        x ∈ (((dictKeys d).insertionSort
            (fun a b => hitsGet h a ≤ hitsGet h b)).drop (d.length - m)) := by
      intro x hxd hxnot
      have hxs : x ∈ (dictKeys d).insertionSort
          (fun a b => hitsGet h a ≤ hitsGet h b) := hperm.mem_iff.mpr hxd
      rw [← List.take_append_drop (d.length - m)
        ((dictKeys d).insertionSort
          (fun a b => hitsGet h a ≤ hitsGet h b))] at hxs
      rcases List.mem_append.mp hxs with hx | hx
      · exact absurd hx hxnot
      · exact hx
    refine ⟨?_, ?_, ?_⟩
    · intro k k' hk hkE hk'E
      have hkR : k ∈ ((dictKeys d).insertionSort
          (fun a b => hitsGet h a ≤ hitsGet h b)).take (d.length - m) := by
        by_contra hnot
        exact hkE ((hmemiff k).mpr ⟨hk, hnot⟩)
      have hk' := (hmemiff k').mp hk'E
      exact hsorted.rel_of_mem_take_of_mem_drop hkR
        (hdrop k' hk'.1 hk'.2)
    · intro hml k₀ hk₀ hmin
      rw [hmemiff k₀]
      rintro ⟨-, hnotR⟩
      have hk₀drop := hdrop k₀ hk₀ hnotR
      have hslen : ((dictKeys d).insertionSort
          (fun a b => hitsGet h a ≤ hitsGet h b)).length = d.length := by
        rw [hperm.length_eq]
        simp [dictKeys]
      have htakepos : 0 < (((dictKeys d).insertionSort
          (fun a b => hitsGet h a ≤ hitsGet h b)).take
            (d.length - m)).length := by
        rw [List.length_take, hslen]
        omega
      obtain ⟨z, hz⟩ := List.exists_mem_of_length_pos htakepos
      have hzk : hitsGet h z ≤ hitsGet h k₀ :=
        hsorted.rel_of_mem_take_of_mem_drop hz hk₀drop
      have hzd : z ∈ dictKeys d :=
        hperm.mem_iff.mp (List.mem_of_mem_take hz)
      have hzne : z ≠ k₀ := by
        intro hzz
        subst hzz
        exact (List.disjoint_take_drop hnds (Nat.le_refl (d.length - m)))
          hz hk₀drop
      exact absurd hzk (Nat.not_le.mpr (hmin z hzd hzne))
    · intro k₁ k₂ heq hsub hk₂E
      have hk₂d : k₂ ∈ dictKeys d := hsub.subset (by simp)
      have hk₂R : k₂ ∈ ((dictKeys d).insertionSort
          (fun a b => hitsGet h a ≤ hitsGet h b)).take (d.length - m) := by
        by_contra hnot
        exact hk₂E ((hmemiff k₂).mpr ⟨hk₂d, hnot⟩)
      have hpair := List.pair_sublist_insertionSort
        (r := fun a b => hitsGet h a ≤ hitsGet h b) (le_of_eq heq) hsub
      have hk₁R := mem_take_of_pair_sublist _ k₁ k₂ (d.length - m)
        hnds hpair hk₂R
      rw [hmemiff k₁]
      rintro ⟨-, hnot⟩
      exact hnot hk₁R

/-- Claim C4 witness: with capacity one, a cold key (one recorded access)
written before a hot key (five recorded accesses) is the one evicted. -/
theorem C4_lru_eviction_order_witness :
    "a" ∉ dictKeys
      (enforceMemoryLimits 1 [("a", (10 : Nat)), ("b", 20)]
        [("a", 1), ("b", 5)]).1 :=
  (C4_lru_eviction_order 1 [("a", (10 : Nat)), ("b", 20)]
      [("a", 1), ("b", 5)] (by decide)).2.1 (by decide) "a" (by decide)
    (by decide)

/-- Claim C5: read-through order and promotion.  A read checks the memory
dict first and on a hit returns that entry immediately, performing only
the memory lookup (no disk access, disk state untouched); on a memory
miss with a fresh disk hit it returns the loaded entry after inserting it
into the memory dict subject to the eviction limit; on a miss in both
tiers it returns `None` with the state unchanged; and no read ever
performs an upstream API call. -/
theorem C5_read_through_order {α : Type} (memE diskE : Bool)
    (t maxI : Nat) (dom : DomainState α) (key : String) (now : Nat) :
    (memE = true → dictContains dom.mem key = true →
      getOp memE diskE t maxI dom key now
        = (dictGet? dom.mem key,
           { dom with hits := updateCacheHit dom.hits key },
           [CacheEvent.memLookup]))
    ∧ (dictContains dom.mem key = false → diskE = true →
        ∀ e : DiskEntry α, dictGet? dom.disk key = some e →
        now - e.timestamp ≤ t * 86400 →
        (getOp memE diskE t maxI dom key now).1 = some e.data
        ∧ (memE = true →
            (getOp memE diskE t maxI dom key now).2.1.mem
              = (enforceMemoryLimits maxI (dictSet dom.mem key e.data)
                  (updateCacheHit dom.hits key)).1))
    ∧ ((memE = false ∨ dictContains dom.mem key = false) →
        (diskE = false ∨ loadFromDiskCache true t dom.disk key now
            = (false, none)) →
        (getOp memE diskE t maxI dom key now).1 = none
        ∧ (getOp memE diskE t maxI dom key now).2.1 = dom)
    ∧ CacheEvent.apiCall ∉ (getOp memE diskE t maxI dom key now).2.2 := by
  refine ⟨?_, ?_, ?_, ?_⟩
  · intro hm hc
    simp [getOp, hm, hc]
  · intro hc hd e hdisk hfresh
    cases memE with
    | false =>
      constructor
      · simp [getOp, hd, getOpDisk, loadFromDiskCache, hdisk,
          Nat.not_lt.mpr hfresh]
      · intro hm
        exact absurd hm (by simp)
    | true =>
      constructor
      · simp [getOp, hc, hd, getOpDisk, loadFromDiskCache, hdisk,
          Nat.not_lt.mpr hfresh]
      · intro _
        simp [getOp, hc, hd, getOpDisk, loadFromDiskCache, hdisk,
          Nat.not_lt.mpr hfresh]
  · intro hmiss hdmiss
    have hcond : (memE && dictContains dom.mem key) = false := by
      rcases hmiss with hm | hc
      · simp [hm]
      · simp [hc]
    rcases hdmiss with hd | hload
    · constructor <;> simp [getOp, hcond, hd, getOpDisk]
    · cases diskE with
      | false => constructor <;> simp [getOp, hcond, getOpDisk]
      | true => constructor <;> simp [getOp, hcond, getOpDisk, hload]
  · by_cases hc : (memE && dictContains dom.mem key) = true
    · simp [getOp, hc]
    · have hc' : (memE && dictContains dom.mem key) = false :=
        Bool.not_eq_true _ ▸ (Bool.eq_false_iff.mpr hc)
      cases diskE with
      | false =>
        cases memE with
        | false => simp [getOp, hc', getOpDisk]
        | true => simp [getOp, hc', getOpDisk]
      | true =>
        cases memE with
        | false => simp [getOp, hc', getOpDisk]
        | true => simp [getOp, hc', getOpDisk]

/-- Claim C5 witness: a concrete memory hit returns the entry immediately
with only the memory lookup performed. -/
theorem C5_read_through_order_witness :
    getOp true true 1 1000
        (⟨[("aapl", (42 : Nat))], [("aapl", 1)], []⟩ : DomainState Nat)
        "aapl" 99
      = (dictGet? [("aapl", (42 : Nat))] "aapl",
         { (⟨[("aapl", (42 : Nat))], [("aapl", 1)], []⟩ : DomainState Nat)
            with hits := updateCacheHit [("aapl", 1)] "aapl" },
         [CacheEvent.memLookup]) :=
  (C5_read_through_order true true 1 1000
      ⟨[("aapl", (42 : Nat))], [("aapl", 1)], []⟩ "aapl" 99).1
    rfl (by decide)

/-- Claim C6 counterexample: `Cache`'s in-memory dict stores no
timestamps, so a stale entry held in memory is returned.  With the default
one-day TTL, a price payload written at time 0 is read back from memory
at time 172800 (age two days, beyond the TTL) instead of being treated as
a miss. -/
theorem C6_counterexample :
    1 * 86400 < 172800 - 0
    ∧ ((cachePlain.set_prices "AAPL" "2024-01-01" "2024-01-31" 42 0
          ).get_prices "AAPL" "2024-01-01" "2024-01-31" 172800).1
        = some 42 := by
  constructor
  · decide
  · decide

/-- Claim C6 (amended): the TTL is enforced on the `Cache`'s disk-tier
reads — on a memory miss, a disk entry whose age exceeds
`cache_timeout_days * 86400` is reported as not-found — and on the
`DataLoader`'s memory reads, whose timestamped entries are reported as
misses once stale; the `Cache`'s own memory tier stores no timestamps and
returns entries regardless of age. -/
theorem C6_amended_ttl {α : Type} :
    (∀ (memE diskE : Bool) (t maxI : Nat) (dom : DomainState α)
        (key : String) (now : Nat) (e : DiskEntry α),
        dictContains dom.mem key = false →
        dictGet? dom.disk key = some e →
        t * 86400 < now - e.timestamp →
        (getOp memE diskE t maxI dom key now).1 = none)
    ∧ (∀ (memE : Bool) (t : Nat)
        (cache : List (String × MemCacheItem α)) (key : String)
        (now : Nat) (item : MemCacheItem α),
        dictGet? cache key = some item →
        t * 86400 < now - item.timestamp →
        getFromMemoryCache memE t cache key now = (false, none)) := by
  constructor
  · intro memE diskE t maxI dom key now e hc hdisk hstale
    cases diskE with
    | false => simp [getOp, hc, getOpDisk]
    | true => simp [getOp, hc, getOpDisk, loadFromDiskCache, hdisk, hstale]
  · intro memE t cache key now item hitem hstale
    cases memE with
    | false => simp [getFromMemoryCache]
    | true => simp [getFromMemoryCache, hitem, Nat.not_le.mpr hstale]

/-- Claim C6 (amended) witness: a stale disk entry is reported as a miss
by the `Cache`, and a stale timestamped memory entry is reported as a miss
by the `DataLoader`. -/
theorem C6_amended_ttl_witness :
    (getOp true true 1 1000
        (⟨[], [], [("aapl", ⟨0, 42⟩)]⟩ : DomainState Nat) "aapl" 172800).1
      = none
    ∧ getFromMemoryCache true 1
        [("aapl", (⟨0, 42⟩ : MemCacheItem Nat))] "aapl" 172800
      = (false, none) :=
  ⟨C6_amended_ttl.1 true true 1 1000 ⟨[], [], [("aapl", ⟨0, 42⟩)]⟩
      "aapl" 172800 ⟨0, 42⟩ (by decide) (by decide) (by decide),
   C6_amended_ttl.2 true 1 [("aapl", ⟨0, 42⟩)] "aapl" 172800 ⟨0, 42⟩
      (by decide) (by decide)⟩

theorem map_toLower_eq_of_forall₂ (l₁ l₂ : List Char)
    (hcase : List.Forall₂ (fun c₁ c₂ => Char.toLower c₁ = Char.toLower c₂)
      l₁ l₂) : l₁.map Char.toLower = l₂.map Char.toLower := by
  induction hcase with
  | nil => rfl
  | cons h _ ih => simp [h, ih]

theorem toLowerStr_eq_of_forall₂ (t₁ t₂ : String)
    (hcase : List.Forall₂ (fun c₁ c₂ => Char.toLower c₁ = Char.toLower c₂)
      t₁.data t₂.data) : toLowerStr t₁ = toLowerStr t₂ :=
  congrArg String.mk (map_toLower_eq_of_forall₂ _ _ hcase)

/-- Claim C7: cache-key derivation is case-insensitive in the ticker
(tickers equal up to letter case yield the same key), independent of the
order of the parameter mapping (permuted parameter lists yield the same
key), and has the claimed shape: with no parameters the key is the
lower-cased ticker (when within the 100-character bound), and with
parameters it is the lower-cased ticker followed by the sorted `k=v`
pairs, falling back to the md5 hash whenever the composed string exceeds
100 characters. -/
theorem C7_cache_key_derivation (md5 : String → String) :
    (∀ t₁ t₂ params,
        List.Forall₂ (fun c₁ c₂ => Char.toLower c₁ = Char.toLower c₂)
          t₁.data t₂.data →
        generateCacheKey md5 t₁ params = generateCacheKey md5 t₂ params)
    ∧ (∀ t p₁ p₂, List.Perm p₁ p₂ →
        generateCacheKey md5 t p₁ = generateCacheKey md5 t p₂)
    ∧ (∀ t, (toLowerStr t).length ≤ 100 →
        generateCacheKey md5 t [] = toLowerStr t)
    ∧ (∀ t params, params ≠ ([] : List (String × String)) →
        generateCacheKey md5 t params
          = (if 100 < (toLowerStr t ++ "_" ++ String.intercalate "_"
                ((params.map fun kv => kv.1 ++ "=" ++ kv.2).insertionSort
                  (fun a b => a.data ≤ b.data))).length
             then toLowerStr t ++ "_" ++ md5 (toLowerStr t ++ "_"
                ++ String.intercalate "_"
                  ((params.map fun kv => kv.1 ++ "=" ++ kv.2).insertionSort
                    (fun a b => a.data ≤ b.data)))
             else toLowerStr t ++ "_" ++ String.intercalate "_"
                ((params.map fun kv => kv.1 ++ "=" ++ kv.2).insertionSort
                  (fun a b => a.data ≤ b.data)))) := by
  haveI : IsTotal String (fun a b : String => a.data ≤ b.data) :=
    ⟨fun a b => le_total a.data b.data⟩
  haveI : IsTrans String (fun a b : String => a.data ≤ b.data) :=
    ⟨fun a b c hab hbc => le_trans hab hbc⟩
  haveI : IsAntisymm String (fun a b : String => a.data ≤ b.data) :=
    ⟨fun a b h1 h2 => by
      cases a
      cases b
      exact congrArg String.mk (le_antisymm h1 h2)⟩
  refine ⟨?_, ?_, ?_, ?_⟩
  · intro t₁ t₂ params hcase
    have hl := toLowerStr_eq_of_forall₂ t₁ t₂ hcase
    simp only [generateCacheKey, hl]
  · intro t p₁ p₂ hperm
    have hempty : p₁.isEmpty = p₂.isEmpty := by
      cases p₁ with
      | nil =>
        cases p₂ with
        | nil => rfl
        | cons b l₂ => simpa using hperm.length_eq
      | cons a l₁ =>
        cases p₂ with
        | nil => simpa using hperm.length_eq
        | cons b l₂ => rfl
    have hsort : (p₁.map fun kv => kv.1 ++ "=" ++ kv.2).insertionSort
          (fun a b : String => a.data ≤ b.data)
        = (p₂.map fun kv => kv.1 ++ "=" ++ kv.2).insertionSort
          (fun a b : String => a.data ≤ b.data) :=
      List.eq_of_perm_of_sorted
        ((List.perm_insertionSort _ _).trans
          ((hperm.map _).trans (List.perm_insertionSort _ _).symm))
        (List.sorted_insertionSort _ _) (List.sorted_insertionSort _ _)
    simp only [generateCacheKey, hempty, hsort]
  · intro t hle
    simp [generateCacheKey, Nat.not_lt.mpr hle]
  · intro t params hne
    have hempty : params.isEmpty = false := by
      cases params with
      | nil => exact absurd rfl hne
      | cons a l => rfl
    simp only [generateCacheKey, hempty, Bool.false_eq_true, if_false]

/-- Claim C7 witness: the key for `"AAPL"` with parameters given in one
order equals the key for `"aapl"` with the same parameters permuted. -/
theorem C7_cache_key_derivation_witness :
    generateCacheKey md5Stub "AAPL"
        [("start_date", "2024-01-01"), ("end_date", "2024-01-31")]
      = generateCacheKey md5Stub "aapl"
        [("start_date", "2024-01-01"), ("end_date", "2024-01-31")]
    ∧ generateCacheKey md5Stub "aapl"
        [("start_date", "2024-01-01"), ("end_date", "2024-01-31")]
      = generateCacheKey md5Stub "aapl"
        [("end_date", "2024-01-31"), ("start_date", "2024-01-01")] :=
  ⟨(C7_cache_key_derivation md5Stub).1 "AAPL" "aapl"
      [("start_date", "2024-01-01"), ("end_date", "2024-01-31")]
      (by decide),
   (C7_cache_key_derivation md5Stub).2.1 "aapl"
      [("start_date", "2024-01-01"), ("end_date", "2024-01-31")]
      [("end_date", "2024-01-31"), ("start_date", "2024-01-01")]
      (List.Perm.swap _ _ _)⟩

end AIHF
